import Mathlib

/-!
Verification of the `EarlyAllocator<PAGE_SIZE>` bump allocator
(`modules/bump_allocator/src/lib.rs`).

The allocator owns one contiguous region `[start, end)` with two cursors:
`byte_pos` grows upward for byte allocations, `page_pos` grows downward for
page allocations.

Embedding conventions:
- `usize` is 64-bit; values are `Nat` and every machine operation that Rust
  checks (add/sub/mul overflow, shift amount of 64 or more, `%`/`/` by zero)
  is modelled explicitly: an operation that would panic returns `none`.
- Rust's bitwise complement `!x` on a `usize` `x` is `2^64 - 1 - x`.
- `AllocResult` is `Except AllocError`; a fallible operation returns
  `Option (Except AllocError addr × state)`, pairing the result with the
  post-state (errors leave the state unchanged, as the source returns early).
-/

namespace BumpAlloc

/-- Rust bitwise complement on a 64-bit `usize`: for `x < 2^64`,
all 64 bits flipped, i.e. `2^64 - 1 - x`. -/
def not64 (x : Nat) : Nat := 2 ^ 64 - 1 - x

/-- The `AllocError` variants used by the source (`allocator` crate):
`NoMemory` is the out-of-memory error, `InvalidParam` the bad-alignment one. -/
inductive AllocError where
  | NoMemory
  | InvalidParam
deriving DecidableEq

/-- The allocator state: fields of `pub struct EarlyAllocator<const PAGE_SIZE>`
(`end` is a Lean keyword, so the field is named `end_`). -/
structure EarlyAllocator where
  start : Nat
  end_ : Nat
  byte_pos : Nat
  page_pos : Nat
deriving DecidableEq

/-- The `new()` constructor: all fields zero. -/
def new : EarlyAllocator := ⟨0, 0, 0, 0⟩

/-- Source `init(&mut self, start, size)`: sets `start`, `end = start + size`,
`byte_pos = start`, `page_pos = end`. The addition `start + size` traps on
usize overflow. -/
def init (start size : Nat) : Option EarlyAllocator :=
  if start + size < 2 ^ 64 then
    some { start := start, end_ := start + size, byte_pos := start, page_pos := start + size }
  else none

/-- Source `alloc(&mut self, layout)` with `layout = (size, align)`:
`aligned_start = (byte_pos + align - 1) & !(align - 1)`; fails with `NoMemory`
when `aligned_start + size > page_pos`, else advances `byte_pos` and returns
`aligned_start`. `byte_pos + align` overflow, `align = 0` underflow and
`aligned_start + size` overflow trap. -/
def alloc (st : EarlyAllocator) (size align : Nat) :
    Option (Except AllocError Nat × EarlyAllocator) :=
  if align = 0 ∨ 2 ^ 64 ≤ st.byte_pos + align then none
  else
    let aligned_start := (st.byte_pos + align - 1) &&& not64 (align - 1)
    if 2 ^ 64 ≤ aligned_start + size then none
    else if st.page_pos < aligned_start + size then some (.error .NoMemory, st)
    else some (.ok aligned_start, { st with byte_pos := aligned_start + size })

/-- Source `dealloc(&mut self, pos, layout)` is a no-op in the source. -/
def dealloc (st : EarlyAllocator) (_pos _size _align : Nat) : EarlyAllocator := st

/-- Source `total_bytes(&self) = end - start`. -/
def total_bytes (st : EarlyAllocator) : Nat := st.end_ - st.start

/-- Source `used_bytes(&self) = byte_pos - start`. -/
def used_bytes (st : EarlyAllocator) : Nat := st.byte_pos - st.start

/-- Source `available_bytes(&self) = page_pos - byte_pos`. -/
def available_bytes (st : EarlyAllocator) : Nat := st.page_pos - st.byte_pos

/-- Rust `usize::is_power_of_two`, by its contract: true iff the value equals
`2^k` for some `k` (for a `usize`, necessarily `k < 64`). -/
def is_power_of_two (n : Nat) : Bool := (List.range 64).any fun k => n == 2 ^ k

/-- Source `alloc_pages(&mut self, num_pages, align_pow2)`: rejects `align_pow2` not a
multiple of `PAGE_SIZE` or with `align_pow2 / PAGE_SIZE` not a power of two;
then `size = num_pages * PAGE_SIZE`, `align = 1 << (align_pow2 / PAGE_SIZE)`,
`new_page_pos = (page_pos - size) & !(align - 1)`; fails with `NoMemory` when
`new_page_pos < byte_pos`, else lowers `page_pos` and returns `new_page_pos`.
The `%`/`/` with `PAGE_SIZE = 0`, the multiplication overflow, a shift amount
of 64 or more, and the `page_pos - size` underflow trap. -/
def alloc_pages (PS : Nat) (st : EarlyAllocator) (num_pages align_pow2 : Nat) :
    Option (Except AllocError Nat × EarlyAllocator) :=
  if PS = 0 then none
  else if align_pow2 % PS ≠ 0 then some (.error .InvalidParam, st)
  else if is_power_of_two (align_pow2 / PS) = false then some (.error .InvalidParam, st)
  else if 2 ^ 64 ≤ num_pages * PS then none
  else if 64 ≤ align_pow2 / PS then none
  else
    let size := num_pages * PS
    let align := 1 <<< (align_pow2 / PS)
    if st.page_pos < size then none
    else
      let new_page_pos := (st.page_pos - size) &&& not64 (align - 1)
      if new_page_pos < st.byte_pos then some (.error .NoMemory, st)
      else some (.ok new_page_pos, { st with page_pos := new_page_pos })

/-- Source `dealloc_pages(&mut self, pos, num_pages)` is a no-op in the source. -/
def dealloc_pages (st : EarlyAllocator) (_pos _num_pages : Nat) : EarlyAllocator := st

/-- Source `total_pages(&self) = (end - start) / PAGE_SIZE`. -/
def total_pages (PS : Nat) (st : EarlyAllocator) : Nat := (st.end_ - st.start) / PS

/-- Source `used_pages(&self) = (end - page_pos) / PAGE_SIZE`. -/
def used_pages (PS : Nat) (st : EarlyAllocator) : Nat := (st.end_ - st.page_pos) / PS

/-- Source `available_pages(&self) = (page_pos - byte_pos) / PAGE_SIZE`. -/
def available_pages (PS : Nat) (st : EarlyAllocator) : Nat :=
  (st.page_pos - st.byte_pos) / PS

/-- Source `add_memory` is `unimplemented!()`: it always panics. -/
def add_memory (_st : EarlyAllocator) (_start _size : Nat) :
    Option (Except AllocError Unit × EarlyAllocator) := none

/-- One completed (non-panicking) call on an initialized allocator. `alloc` is
only reachable through a `Layout`, whose alignment is always a power of two,
hence the `align = 2 ^ k` side condition on the byte-allocation steps.
The statistics getters take `&self` and do not change the state. -/
inductive Step (PS : Nat) : EarlyAllocator → EarlyAllocator → Prop where
  | allocOk (st st' : EarlyAllocator) (size align k addr : Nat) :
      align = 2 ^ k → alloc st size align = some (.ok addr, st') → Step PS st st'
  | allocErr (st st' : EarlyAllocator) (size align k : Nat) (e : AllocError) :
      align = 2 ^ k → alloc st size align = some (.error e, st') → Step PS st st'
  | allocPagesOk (num_pages align_pow2 addr : Nat) (st st' : EarlyAllocator) :
      alloc_pages PS st num_pages align_pow2 = some (.ok addr, st') → Step PS st st'
  | allocPagesErr (num_pages align_pow2 : Nat) (e : AllocError) (st st' : EarlyAllocator) :
      alloc_pages PS st num_pages align_pow2 = some (.error e, st') → Step PS st st'
  | deallocStep (st : EarlyAllocator) (pos size align : Nat) :
      Step PS st (dealloc st pos size align)
  | deallocPagesStep (st : EarlyAllocator) (pos num_pages : Nat) :
      Step PS st (dealloc_pages st pos num_pages)

/-- Zero or more completed calls. -/
def Reach (PS : Nat) : EarlyAllocator → EarlyAllocator → Prop :=
  Relation.ReflTransGen (Step PS)

/-- States produced by a successful `init` followed by any sequence of
completed calls. -/
def Reachable (PS : Nat) (st : EarlyAllocator) : Prop :=
  ∃ st0 start size, init start size = some st0 ∧ Reach PS st0 st

/-- Rounding up to a multiple of `a`, as the spec describes
`aligned_start = round_up(byte_pos, align)`. -/
def round_up (x a : Nat) : Nat := a * ((x + a - 1) / a)

/-- Rounding down by clearing the bits of a low-bit mask, as the spec
describes `round_down(page_pos - size, mask)` with `mask = (1 << u) - 1`. -/
def round_down (x mask : Nat) : Nat := x - x % (mask + 1)

/-- Byte allocation exactly as the spec sentence states it: compute
`aligned_start = round_up(byte_pos, align)`, succeed iff
`aligned_start + size ≤ page_pos`, on success advance `byte_pos` and return
`aligned_start`, otherwise fail with `OutOfMemory` leaving the state
unchanged. -/
def alloc_claim (st : EarlyAllocator) (size align : Nat) :
    Except AllocError Nat × EarlyAllocator :=
  let aligned_start := round_up st.byte_pos align
  if aligned_start + size ≤ st.page_pos then
    (.ok aligned_start, { st with byte_pos := aligned_start + size })
  else (.error .NoMemory, st)

/-- Page allocation exactly as the spec sentence states it: with
`align_units = align_in_bytes / PAGE_SIZE`, compute
`size = num_pages * PAGE_SIZE`, `mask = (1 << align_units) - 1`,
`new_page_pos = round_down(page_pos - size, mask)`; succeed iff
`new_page_pos ≥ byte_pos`, on success set `page_pos = new_page_pos` and
return it, otherwise fail with `OutOfMemory`. -/
def alloc_pages_claim (PS : Nat) (st : EarlyAllocator) (num_pages align_in_bytes : Nat) :
    Except AllocError Nat × EarlyAllocator :=
  let align_units := align_in_bytes / PS
  let size := num_pages * PS
  let mask := 2 ^ align_units - 1
  let new_page_pos := round_down (st.page_pos - size) mask
  if st.byte_pos ≤ new_page_pos then
    (.ok new_page_pos, { st with page_pos := new_page_pos })
  else (.error .NoMemory, st)

/-! ### Bitwise-to-arithmetic bridge -/

/-- Complementing a low-bit mask `2^u - 1` inside 64 bits yields the matching
high-bit mask `2^64 - 2^u`, which factors as `2^u * (2^(64-u) - 1)`. -/
lemma not64_two_pow_sub_one (u : Nat) (hu : u ≤ 64) :
    not64 (2 ^ u - 1) = 2 ^ u * (2 ^ (64 - u) - 1) := by
  have h1 : 2 ^ u * 2 ^ (64 - u) = 2 ^ 64 := by
    rw [← pow_add]
    congr 1
    omega
  have h2 : 1 ≤ 2 ^ u := Nat.one_le_two_pow
  have h3 : 1 ≤ 2 ^ (64 - u) := Nat.one_le_two_pow
  have h4 : 2 ^ u * (2 ^ (64 - u) - 1) = 2 ^ 64 - 2 ^ u := by
    rw [Nat.mul_sub, h1, Nat.mul_one]
  unfold not64
  omega

/-- Clearing the low `u` bits of `x < 2^64` with the complemented mask rounds
`x` down to a multiple of `2^u`. -/
lemma land_not64_mask (x u : Nat) (hx : x < 2 ^ 64) (hu : u < 64) :
    x &&& not64 (2 ^ u - 1) = 2 ^ u * (x / 2 ^ u) := by
  rw [not64_two_pow_sub_one u (le_of_lt hu)]
  apply Nat.eq_of_testBit_eq
  intro j
  rw [Nat.testBit_land]
  have hm : 2 ^ u * (2 ^ (64 - u) - 1) = (2 ^ (64 - u) - 1) <<< u := by
    rw [Nat.shiftLeft_eq]
    ring
  have hr : 2 ^ u * (x / 2 ^ u) = (x >>> u) <<< u := by
    rw [Nat.shiftLeft_eq, Nat.shiftRight_eq_div_pow]
    ring
  rw [hm, hr, Nat.testBit_shiftLeft, Nat.testBit_shiftLeft, Nat.testBit_shiftRight,
    Nat.testBit_two_pow_sub_one]
  by_cases hj : j < u
  · have : ¬ (j ≥ u) := by omega
    simp [this]
  · by_cases hj64 : j < 64
    · have h1 : j ≥ u := by omega
      have h2 : u + (j - u) = j := by omega
      have h3 : j - u < 64 - u := by omega
      simp [h1, h2, h3]
    · have h1 : x < 2 ^ j := lt_of_lt_of_le hx (Nat.pow_le_pow_right (by norm_num) (by omega))
      have h2 : x.testBit j = false := Nat.testBit_lt_two_pow h1
      by_cases h3 : j ≥ u
      · simp [h3, Nat.add_sub_cancel' h3, h2]
      · simp [h3]

/-- Rounding down to a multiple: `2^u * (x / 2^u) ≤ x`. -/
lemma two_pow_mul_div_le (x u : Nat) : 2 ^ u * (x / 2 ^ u) ≤ x := by
  have := Nat.div_add_mod x (2 ^ u)
  omega

/-- Rounding `b` up to a multiple of `2^u` does not go below `b`. -/
lemma le_round_up_two_pow (b u : Nat) : b ≤ 2 ^ u * ((b + 2 ^ u - 1) / 2 ^ u) := by
  have h1 : 1 ≤ 2 ^ u := Nat.one_le_two_pow
  have h2 := Nat.div_add_mod (b + 2 ^ u - 1) (2 ^ u)
  have h3 : (b + 2 ^ u - 1) % 2 ^ u < 2 ^ u := Nat.mod_lt _ (by omega)
  omega

/-- Rounding via `round_down` by the mask `2^u - 1` is division-style rounding down. -/
lemma round_down_mask_eq (x u : Nat) :
    round_down x (2 ^ u - 1) = 2 ^ u * (x / 2 ^ u) := by
  have h1 : 1 ≤ 2 ^ u := Nat.one_le_two_pow
  have h2 : 2 ^ u - 1 + 1 = 2 ^ u := by omega
  have h3 := Nat.div_add_mod x (2 ^ u)
  unfold round_down
  rw [h2]
  omega

/-- Predicate `is_power_of_two` decides membership in the powers of two below `2^64`. -/
lemma is_power_of_two_iff (n : Nat) :
    is_power_of_two n = true ↔ ∃ k, k < 64 ∧ n = 2 ^ k := by
  unfold is_power_of_two
  simp [List.any_eq_true, List.mem_range]

/-- For a `usize` value, `is_power_of_two` agrees with being a power of two. -/
lemma is_power_of_two_iff_usize (n : Nat) (hn : n < 2 ^ 64) :
    is_power_of_two n = true ↔ ∃ k, n = 2 ^ k := by
  rw [is_power_of_two_iff]
  constructor
  · rintro ⟨k, _, hk⟩
    exact ⟨k, hk⟩
  · rintro ⟨k, hk⟩
    refine ⟨k, ?_, hk⟩
    by_contra h
    have : (2 : Nat) ^ 64 ≤ 2 ^ k := Nat.pow_le_pow_right (by norm_num) (by omega)
    omega

/-! ### Characterization of the operations -/

/-- Everything a successful `alloc` guarantees, read off the branch structure
of the source. -/
lemma alloc_ok_spec (st st' : EarlyAllocator) (size align addr : Nat)
    (h : alloc st size align = some (.ok addr, st')) :
    align ≠ 0 ∧ st.byte_pos + align < 2 ^ 64 ∧
    addr = (st.byte_pos + align - 1) &&& not64 (align - 1) ∧
    addr + size < 2 ^ 64 ∧ addr + size ≤ st.page_pos ∧
    st' = { st with byte_pos := addr + size } := by
  simp only [alloc] at h
  split at h
  · exact absurd h (by simp)
  · split at h
    · exact absurd h (by simp)
    · split at h
      · exact absurd h (by simp)
      · simp only [Option.some.injEq, Prod.mk.injEq, Except.ok.injEq] at h
        obtain ⟨haddr, hst⟩ := h
        subst haddr
        subst hst
        rename_i h0 h1 h2
        exact ⟨by omega, by omega, rfl, by omega, by omega, rfl⟩

/-- With a power-of-two alignment (always the case through `Layout`), the
address a successful `alloc` returns is `byte_pos` rounded up to the
alignment; in particular it is aligned and not below `byte_pos`. -/
lemma alloc_ok_round_up (st st' : EarlyAllocator) (size align k addr : Nat)
    (hk : align = 2 ^ k)
    (h : alloc st size align = some (.ok addr, st')) :
    addr = 2 ^ k * ((st.byte_pos + 2 ^ k - 1) / 2 ^ k) ∧ st.byte_pos ≤ addr := by
  obtain ⟨-, hov, haddr, -, -, -⟩ := alloc_ok_spec st st' size align addr h
  subst hk
  have hklt : k < 64 := by
    by_contra hc
    have : (2 : Nat) ^ 64 ≤ 2 ^ k := Nat.pow_le_pow_right (by norm_num) (by omega)
    omega
  have hxlt : st.byte_pos + 2 ^ k - 1 < 2 ^ 64 := by omega
  rw [land_not64_mask _ k hxlt hklt] at haddr
  exact ⟨haddr, haddr ▸ le_round_up_two_pow st.byte_pos k⟩

/-- A failing `alloc` reports `NoMemory` and leaves the state unchanged. -/
lemma alloc_err_spec (st st' : EarlyAllocator) (size align : Nat) (e : AllocError)
    (h : alloc st size align = some (.error e, st')) :
    st' = st ∧ e = .NoMemory := by
  simp only [alloc] at h
  split at h
  · exact absurd h (by simp)
  · split at h
    · exact absurd h (by simp)
    · split at h
      · simp only [Option.some.injEq, Prod.mk.injEq, Except.error.injEq] at h
        exact ⟨h.2.symm, h.1.symm⟩
      · exact absurd h (by simp)

/-- Everything a successful `alloc_pages` guarantees, read off the branch
structure of the source. -/
lemma alloc_pages_ok_spec (PS : Nat) (st st' : EarlyAllocator)
    (num_pages align_pow2 addr : Nat)
    (h : alloc_pages PS st num_pages align_pow2 = some (.ok addr, st')) :
    0 < PS ∧ align_pow2 % PS = 0 ∧ is_power_of_two (align_pow2 / PS) = true ∧
    num_pages * PS < 2 ^ 64 ∧ align_pow2 / PS < 64 ∧
    num_pages * PS ≤ st.page_pos ∧
    addr = (st.page_pos - num_pages * PS) &&& not64 (2 ^ (align_pow2 / PS) - 1) ∧
    st.byte_pos ≤ addr ∧ addr ≤ st.page_pos ∧
    st' = { st with page_pos := addr } := by
  simp only [alloc_pages, Nat.one_shiftLeft] at h
  split at h
  · exact absurd h (by simp)
  · split at h
    · exact absurd h (by simp)
    · split at h
      · exact absurd h (by simp)
      · split at h
        · exact absurd h (by simp)
        · split at h
          · exact absurd h (by simp)
          · split at h
            · exact absurd h (by simp)
            · split at h
              · exact absurd h (by simp)
              · simp only [Option.some.injEq, Prod.mk.injEq, Except.ok.injEq] at h
                obtain ⟨haddr, hst⟩ := h
                subst haddr
                subst hst
                rename_i h0 h1 h2 h3 h4 h5 h6
                have hland := Nat.and_le_left (n := st.page_pos - num_pages * PS)
                  (m := not64 (2 ^ (align_pow2 / PS) - 1))
                refine ⟨by omega, by omega, by simpa using h2, by omega, by omega,
                  by omega, rfl, by omega, by omega, rfl⟩

/-- A failing `alloc_pages` leaves the state unchanged. -/
lemma alloc_pages_err_spec (PS : Nat) (st st' : EarlyAllocator)
    (num_pages align_pow2 : Nat) (e : AllocError)
    (h : alloc_pages PS st num_pages align_pow2 = some (.error e, st')) :
    st' = st := by
  simp only [alloc_pages, Nat.one_shiftLeft] at h
  split at h
  · exact absurd h (by simp)
  · split at h
    · simp only [Option.some.injEq, Prod.mk.injEq] at h
      exact h.2.symm
    · split at h
      · simp only [Option.some.injEq, Prod.mk.injEq] at h
        exact h.2.symm
      · split at h
        · exact absurd h (by simp)
        · split at h
          · exact absurd h (by simp)
          · split at h
            · exact absurd h (by simp)
            · split at h
              · simp only [Option.some.injEq, Prod.mk.injEq] at h
                exact h.2.symm
              · exact absurd h (by simp)

/-! ### Reachability invariant -/

/-- The state invariant: ordered cursors inside the region and `usize`-sized
bounds. -/
def Inv (st : EarlyAllocator) : Prop :=
  st.start ≤ st.byte_pos ∧ st.byte_pos ≤ st.page_pos ∧ st.page_pos ≤ st.end_ ∧
    st.end_ < 2 ^ 64

lemma inv_mk (a b c d : Nat) (h : a ≤ c ∧ c ≤ d ∧ d ≤ b ∧ b < 2 ^ 64) :
    Inv ⟨a, b, c, d⟩ := h

lemma init_inv (start size : Nat) (st : EarlyAllocator)
    (h : init start size = some st) : Inv st := by
  unfold init at h
  split at h
  · simp only [Option.some.injEq] at h
    subst h
    rename_i hlt
    exact inv_mk _ _ _ _ (by omega)
  · exact absurd h (by simp)

lemma step_inv (PS : Nat) (st st' : EarlyAllocator) (hstep : Step PS st st')
    (hinv : Inv st) : Inv st' := by
  obtain ⟨h1, h2, h3, h4⟩ := hinv
  cases hstep with
  | allocOk st st' size align k addr hk h =>
      obtain ⟨-, -, -, -, hfit, hst'⟩ := alloc_ok_spec st st' size align addr h
      obtain ⟨-, hge⟩ := alloc_ok_round_up st st' size align k addr hk h
      subst hst'
      exact inv_mk _ _ _ _ (by omega)
  | allocErr st st' size align k e hk h =>
      obtain ⟨hst', -⟩ := alloc_err_spec st st' size align e h
      subst hst'
      exact ⟨h1, h2, h3, h4⟩
  | allocPagesOk num_pages align_pow2 addr st st' h =>
      obtain ⟨-, -, -, -, -, -, -, hge, hle, hst'⟩ :=
        alloc_pages_ok_spec PS st st' num_pages align_pow2 addr h
      subst hst'
      exact inv_mk _ _ _ _ (by omega)
  | allocPagesErr num_pages align_pow2 e st st' h =>
      obtain hst' := alloc_pages_err_spec PS st st' num_pages align_pow2 e h
      subst hst'
      exact ⟨h1, h2, h3, h4⟩
  | deallocStep st pos size align => exact ⟨h1, h2, h3, h4⟩
  | deallocPagesStep st pos num_pages => exact ⟨h1, h2, h3, h4⟩

lemma reach_inv (PS : Nat) (st st' : EarlyAllocator) (h : Reach PS st st')
    (hinv : Inv st) : Inv st' := by
  induction h with
  | refl => exact hinv
  | tail _ hstep ih => exact step_inv PS _ _ hstep ih

lemma reachable_inv (PS : Nat) (st : EarlyAllocator) (h : Reachable PS st) :
    Inv st := by
  obtain ⟨st0, start, size, hinit, hreach⟩ := h
  exact reach_inv PS st0 st hreach (init_inv start size st0 hinit)

/-- Cursor `byte_pos` never decreases across completed calls. -/
lemma step_byte_pos_mono (PS : Nat) (st st' : EarlyAllocator)
    (hstep : Step PS st st') : st.byte_pos ≤ st'.byte_pos := by
  cases hstep with
  | allocOk st st' size align k addr hk h =>
      obtain ⟨-, -, -, -, -, hst'⟩ := alloc_ok_spec st st' size align addr h
      obtain ⟨-, hge⟩ := alloc_ok_round_up st st' size align k addr hk h
      subst hst'
      show st.byte_pos ≤ addr + size
      omega
  | allocErr st st' size align k e hk h =>
      obtain ⟨hst', -⟩ := alloc_err_spec st st' size align e h
      subst hst'
      exact le_refl _
  | allocPagesOk num_pages align_pow2 addr st st' h =>
      obtain ⟨-, -, -, -, -, -, -, -, -, hst'⟩ :=
        alloc_pages_ok_spec PS st st' num_pages align_pow2 addr h
      subst hst'
      exact le_refl _
  | allocPagesErr num_pages align_pow2 e st st' h =>
      obtain hst' := alloc_pages_err_spec PS st st' num_pages align_pow2 e h
      subst hst'
      exact le_refl _
  | deallocStep st pos size align => exact le_refl _
  | deallocPagesStep st pos num_pages => exact le_refl _

lemma reach_byte_pos_mono (PS : Nat) (st st' : EarlyAllocator)
    (h : Reach PS st st') : st.byte_pos ≤ st'.byte_pos := by
  induction h with
  | refl => exact le_refl _
  | tail _ hstep ih => exact le_trans ih (step_byte_pos_mono PS _ _ hstep)

/-! ### Claims -/

/-- Claim C1, counterexample: `align_in_bytes = 64 * PAGE_SIZE` passes the
alignment validation (64 is a power of two), but then the implementation does
not compute `round_down(page_pos - size, (1 << 64) - 1)` and the
success-iff-`new_page_pos ≥ byte_pos` rule: the shift `1 << 64` overflows the
64-bit shift width and the call panics (modelled as `none`), while the
computation the claim describes would return `OutOfMemory` here. -/
theorem alloc_pages_claim_counterexample :
    (0x40000 : Nat) % 0x1000 = 0 ∧ is_power_of_two (0x40000 / 0x1000) = true ∧
    alloc_pages 0x1000 ⟨0x1000, 0x5000, 0x1000, 0x5000⟩ 0 0x40000 = none ∧
    alloc_pages_claim 0x1000 ⟨0x1000, 0x5000, 0x1000, 0x5000⟩ 0 0x40000 =
      (.error .NoMemory, ⟨0x1000, 0x5000, 0x1000, 0x5000⟩) :=
  ⟨rfl, rfl, rfl, rfl⟩

/-- Claim C1, amended: for every call that passes the alignment validation
and additionally has `align_units < 64` (so the shift `1 << align_units` is
in range) and `num_pages * PAGE_SIZE ≤ page_pos` (so neither the
multiplication nor the subtraction overflows), the implementation computes
`size = num_pages * PAGE_SIZE` and
`new_page_pos = round_down(page_pos - size, (1 << align_units) - 1)`,
succeeds iff `new_page_pos ≥ byte_pos`, on success sets
`page_pos = new_page_pos` and returns it, and otherwise fails with
`OutOfMemory`. -/
theorem alloc_pages_matches_claim (PS : Nat) (st : EarlyAllocator)
    (num_pages align_in_bytes : Nat)
    (hPS : 0 < PS)
    (hmod : align_in_bytes % PS = 0)
    (hpow : is_power_of_two (align_in_bytes / PS) = true)
    (hu : align_in_bytes / PS < 64)
    (hfit : num_pages * PS ≤ st.page_pos)
    (hpp : st.page_pos < 2 ^ 64) :
    alloc_pages PS st num_pages align_in_bytes =
      some (alloc_pages_claim PS st num_pages align_in_bytes) := by
  simp only [alloc_pages, alloc_pages_claim, Nat.one_shiftLeft]
  rw [if_neg (by omega : ¬ PS = 0), if_neg (by omega : ¬ align_in_bytes % PS ≠ 0),
    if_neg (by simp [hpow] : ¬ is_power_of_two (align_in_bytes / PS) = false),
    if_neg (by omega : ¬ 2 ^ 64 ≤ num_pages * PS),
    if_neg (by omega : ¬ 64 ≤ align_in_bytes / PS),
    if_neg (by omega : ¬ st.page_pos < num_pages * PS)]
  have hland : (st.page_pos - num_pages * PS) &&& not64 (2 ^ (align_in_bytes / PS) - 1) =
      round_down (st.page_pos - num_pages * PS) (2 ^ (align_in_bytes / PS) - 1) := by
    rw [land_not64_mask _ _ (by omega) hu, round_down_mask_eq]
  rw [hland]
  by_cases hc :
      round_down (st.page_pos - num_pages * PS) (2 ^ (align_in_bytes / PS) - 1) < st.byte_pos
  · rw [if_pos hc, if_neg (by omega)]
  · rw [if_neg hc, if_pos (by omega)]

/-- Claim C1, witness: a concrete in-range call where the implementation and
the claimed computation agree. -/
theorem alloc_pages_matches_claim_witness :
    (0 : Nat) < 0x1000 ∧ (0x1000 : Nat) % 0x1000 = 0 ∧
    is_power_of_two (0x1000 / 0x1000) = true ∧ (0x1000 : Nat) / 0x1000 < 64 ∧
    1 * 0x1000 ≤ (0x5000 : Nat) ∧ (0x5000 : Nat) < 2 ^ 64 ∧
    alloc_pages 0x1000 ⟨0x1000, 0x5000, 0x1000, 0x5000⟩ 1 0x1000 =
      some (alloc_pages_claim 0x1000 ⟨0x1000, 0x5000, 0x1000, 0x5000⟩ 1 0x1000) :=
  ⟨by decide, by decide, rfl, by decide, by decide, by decide,
    alloc_pages_matches_claim 0x1000 ⟨0x1000, 0x5000, 0x1000, 0x5000⟩ 1 0x1000
      (by decide) (by decide) rfl (by decide) (by decide) (by decide)⟩

/-- Claim C2 (code bug): on the initialized allocator with region
`[0, 0x4006)` (a perfectly legal `init`), `alloc_pages(1, 0x1000)` with
`PAGE_SIZE = 0x1000` passes validation and succeeds, yet returns `0x3006`,
which is not a multiple of `PAGE_SIZE`: the mask `(1 << 1) - 1` only clears
bit 0 instead of aligning to a page boundary. -/
theorem alloc_pages_unaligned_result :
    init 0 0x4006 = some ⟨0, 0x4006, 0, 0x4006⟩ ∧
    alloc_pages 0x1000 ⟨0, 0x4006, 0, 0x4006⟩ 1 0x1000 =
      some (.ok 0x3006, ⟨0, 0x4006, 0, 0x3006⟩) ∧
    (0x3006 : Nat) % 0x1000 ≠ 0 :=
  ⟨rfl, rfl, by decide⟩

/-- Claim C3, counterexample: on the state produced by
`init(2^64 - 0x2000, 0x1000)`, the call `alloc(size = 0, align = 2^63)` (a
legal `Layout`) makes `byte_pos + align` overflow usize, so the code panics
(modelled as `none`) instead of returning `OutOfMemory` as the claimed
round-up computation would. -/
theorem alloc_claim_counterexample :
    init 0xFFFFFFFFFFFFE000 0x1000 =
      some ⟨0xFFFFFFFFFFFFE000, 0xFFFFFFFFFFFFF000, 0xFFFFFFFFFFFFE000, 0xFFFFFFFFFFFFF000⟩ ∧
    (0x8000000000000000 : Nat) = 2 ^ 63 ∧
    alloc ⟨0xFFFFFFFFFFFFE000, 0xFFFFFFFFFFFFF000, 0xFFFFFFFFFFFFE000, 0xFFFFFFFFFFFFF000⟩
      0 0x8000000000000000 = none ∧
    alloc_claim ⟨0xFFFFFFFFFFFFE000, 0xFFFFFFFFFFFFF000, 0xFFFFFFFFFFFFE000, 0xFFFFFFFFFFFFF000⟩
      0 0x8000000000000000 =
      (.error .NoMemory,
        ⟨0xFFFFFFFFFFFFE000, 0xFFFFFFFFFFFFF000, 0xFFFFFFFFFFFFE000, 0xFFFFFFFFFFFFF000⟩) :=
  ⟨rfl, by decide, rfl, rfl⟩

/-- Claim C3, amended: for every call `alloc(size, align)` with `align = 2^k`
a power of two, provided `byte_pos + align` and
`round_up(byte_pos, align) + size` stay below `2^64` (no usize overflow),
the call succeeds iff `aligned_start + size ≤ page_pos` with
`aligned_start = round_up(byte_pos, align)`; on success it sets
`byte_pos = aligned_start + size` and returns `aligned_start`, otherwise it
fails with `OutOfMemory` and the state is unchanged. -/
theorem alloc_matches_claim (st : EarlyAllocator) (size align k : Nat)
    (hk : align = 2 ^ k)
    (hov1 : st.byte_pos + align < 2 ^ 64)
    (hov2 : round_up st.byte_pos align + size < 2 ^ 64) :
    alloc st size align = some (alloc_claim st size align) := by
  subst hk
  have h1 : 1 ≤ 2 ^ k := Nat.one_le_two_pow
  have hkl : k < 64 := by
    by_contra hc
    have : (2 : Nat) ^ 64 ≤ 2 ^ k := Nat.pow_le_pow_right (by norm_num) (by omega)
    omega
  have hland : (st.byte_pos + 2 ^ k - 1) &&& not64 (2 ^ k - 1) =
      round_up st.byte_pos (2 ^ k) := by
    rw [land_not64_mask _ k (by omega) hkl]
    rfl
  simp only [alloc, alloc_claim]
  rw [if_neg (by omega : ¬ (2 ^ k = 0 ∨ 2 ^ 64 ≤ st.byte_pos + 2 ^ k)), hland,
    if_neg (by omega : ¬ 2 ^ 64 ≤ round_up st.byte_pos (2 ^ k) + size)]
  by_cases hc : st.page_pos < round_up st.byte_pos (2 ^ k) + size
  · rw [if_pos hc, if_neg (by omega)]
  · rw [if_neg hc, if_pos (by omega)]

/-- Claim C3, witness: a concrete in-range call where the implementation and
the claimed computation agree. -/
theorem alloc_matches_claim_witness :
    (8 : Nat) = 2 ^ 3 ∧ (0x1000 : Nat) + 8 < 2 ^ 64 ∧
    round_up 0x1000 8 + 16 < 2 ^ 64 ∧
    alloc ⟨0x1000, 0x5000, 0x1000, 0x5000⟩ 16 8 =
      some (alloc_claim ⟨0x1000, 0x5000, 0x1000, 0x5000⟩ 16 8) :=
  ⟨by decide, by decide, by decide,
    alloc_matches_claim ⟨0x1000, 0x5000, 0x1000, 0x5000⟩ 16 8 3 (by decide)
      (by decide) (by decide)⟩

/-- Claim C4, counterexample: with `PAGE_SIZE = 0x1000`, after
`init(0x1000, 0x4000)` and one successful `alloc_pages(1, 0x1000)`, the
reachable state has `used_bytes + available_bytes = 0 + 0x3000 ≠ 0x4000 =
total_bytes` (the byte statistics do not count the `end - page_pos` bytes
held by page allocations); and after `init(0x1000, 0x4000)` and one
successful `alloc(0x2000, 1)`, the reachable state has
`used_pages + available_pages = 0 + 2 ≠ 4 = total_pages` (the page
statistics do not count the `[start, byte_pos)` zone held by byte
allocations). Both claimed equalities fail in reachable states. -/
theorem stats_sum_counterexample :
    (Reachable 0x1000 ⟨0x1000, 0x5000, 0x1000, 0x4000⟩ ∧
      used_bytes ⟨0x1000, 0x5000, 0x1000, 0x4000⟩ +
          available_bytes ⟨0x1000, 0x5000, 0x1000, 0x4000⟩ ≠
        total_bytes ⟨0x1000, 0x5000, 0x1000, 0x4000⟩) ∧
    (Reachable 0x1000 ⟨0x1000, 0x5000, 0x3000, 0x5000⟩ ∧
      used_pages 0x1000 ⟨0x1000, 0x5000, 0x3000, 0x5000⟩ +
          available_pages 0x1000 ⟨0x1000, 0x5000, 0x3000, 0x5000⟩ ≠
        total_pages 0x1000 ⟨0x1000, 0x5000, 0x3000, 0x5000⟩) := by
  refine ⟨⟨?_, by decide⟩, ⟨?_, by decide⟩⟩
  · exact ⟨⟨0x1000, 0x5000, 0x1000, 0x5000⟩, 0x1000, 0x4000, rfl,
      Relation.ReflTransGen.single (Step.allocPagesOk 1 0x1000 0x4000 _ _ rfl)⟩
  · exact ⟨⟨0x1000, 0x5000, 0x1000, 0x5000⟩, 0x1000, 0x4000, rfl,
      Relation.ReflTransGen.single (Step.allocOk _ _ 0x2000 1 0 0x1000 rfl rfl)⟩

/-- Claim C4, amended: in every state reachable from `init`,
`used_bytes() + available_bytes() + (end - page_pos) = total_bytes()` — the
byte statistics omit exactly the `end - page_pos` bytes held by page
allocations — and on the page side only the inequality
`used_pages() + available_pages() ≤ total_pages()` holds: the page
statistics never count the byte-used zone `[start, byte_pos)`, and the
flooring divisions by `PAGE_SIZE` can drop a further fraction of a page. -/
theorem stats_sum_amended (PS : Nat) (st : EarlyAllocator) (h : Reachable PS st) :
    used_bytes st + available_bytes st + (st.end_ - st.page_pos) = total_bytes st ∧
    used_pages PS st + available_pages PS st ≤ total_pages PS st := by
  obtain ⟨h1, h2, h3, h4⟩ := reachable_inv PS st h
  constructor
  · unfold used_bytes available_bytes total_bytes
    omega
  · unfold used_pages available_pages total_pages
    rcases Nat.eq_zero_or_pos PS with hPS | hPS
    · subst hPS
      simp
    · have ha : (st.end_ - st.page_pos) / PS + (st.page_pos - st.byte_pos) / PS ≤
          (st.end_ - st.byte_pos) / PS := by
        rw [Nat.le_div_iff_mul_le hPS, Nat.add_mul]
        have t1 := Nat.div_mul_le_self (st.end_ - st.page_pos) PS
        have t2 := Nat.div_mul_le_self (st.page_pos - st.byte_pos) PS
        omega
      have hb : (st.end_ - st.byte_pos) / PS ≤ (st.end_ - st.start) / PS :=
        Nat.div_le_div_right (by omega)
      omega

/-- Claim C4, witness: the amended statement instantiated in the state
produced by `init(0x1000, 0x4000)`. -/
theorem stats_sum_amended_witness :
    Reachable 0x1000 ⟨0x1000, 0x5000, 0x1000, 0x5000⟩ ∧
    (used_bytes ⟨0x1000, 0x5000, 0x1000, 0x5000⟩ +
        available_bytes ⟨0x1000, 0x5000, 0x1000, 0x5000⟩ +
        ((0x5000 : Nat) - 0x5000) = total_bytes ⟨0x1000, 0x5000, 0x1000, 0x5000⟩ ∧
      used_pages 0x1000 ⟨0x1000, 0x5000, 0x1000, 0x5000⟩ +
          available_pages 0x1000 ⟨0x1000, 0x5000, 0x1000, 0x5000⟩ ≤
        total_pages 0x1000 ⟨0x1000, 0x5000, 0x1000, 0x5000⟩) :=
  ⟨⟨⟨0x1000, 0x5000, 0x1000, 0x5000⟩, 0x1000, 0x4000, rfl, Relation.ReflTransGen.refl⟩,
    stats_sum_amended 0x1000 ⟨0x1000, 0x5000, 0x1000, 0x5000⟩
      ⟨⟨0x1000, 0x5000, 0x1000, 0x5000⟩, 0x1000, 0x4000, rfl, Relation.ReflTransGen.refl⟩⟩

/-- Claim C5 (confirmed): every state reachable from a successful `init` by
completed calls satisfies `start ≤ byte_pos ≤ page_pos ≤ end`. (A call whose
internal arithmetic overflows panics and so never completes successfully;
such calls produce no state.) -/
theorem cursor_order_invariant (PS : Nat) (st : EarlyAllocator)
    (h : Reachable PS st) :
    st.start ≤ st.byte_pos ∧ st.byte_pos ≤ st.page_pos ∧ st.page_pos ≤ st.end_ := by
  obtain ⟨h1, h2, h3, h4⟩ := reachable_inv PS st h
  exact ⟨h1, h2, h3⟩

/-- Claim C5, witness: the invariant instantiated right after
`init(0x1000, 0x4000)`. -/
theorem cursor_order_invariant_witness :
    Reachable 0x1000 ⟨0x1000, 0x5000, 0x1000, 0x5000⟩ ∧
    ((0x1000 : Nat) ≤ 0x1000 ∧ (0x1000 : Nat) ≤ 0x5000 ∧ (0x5000 : Nat) ≤ 0x5000) :=
  ⟨⟨⟨0x1000, 0x5000, 0x1000, 0x5000⟩, 0x1000, 0x4000, rfl, Relation.ReflTransGen.refl⟩,
    cursor_order_invariant 0x1000 ⟨0x1000, 0x5000, 0x1000, 0x5000⟩
      ⟨⟨0x1000, 0x5000, 0x1000, 0x5000⟩, 0x1000, 0x4000, rfl, Relation.ReflTransGen.refl⟩⟩

/-- Claim C6 (code bug): with `PAGE_SIZE = 0x1000`, after `init(0x1000,
0x1000)` the perfectly valid request `alloc_pages(4, 0x1000)` makes
`size = 0x4000` exceed `page_pos = 0x2000`, so `page_pos - size` underflows
usize and the call panics (modelled as `none`) instead of returning
`OutOfMemory`. -/
theorem alloc_pages_oversize_traps :
    init 0x1000 0x1000 = some ⟨0x1000, 0x2000, 0x1000, 0x2000⟩ ∧
    alloc_pages 0x1000 ⟨0x1000, 0x2000, 0x1000, 0x2000⟩ 4 0x1000 = none :=
  ⟨rfl, rfl⟩

/-- Claim C7 (confirmed): `alloc_pages` fails with `InvalidParam`, leaving
the state unchanged and irrespective of `num_pages`, exactly when
`align_in_bytes` is not a multiple of `PAGE_SIZE` or
`align_in_bytes / PAGE_SIZE` is not a power of two. -/
theorem invalid_param_iff (PS : Nat) (st : EarlyAllocator)
    (num_pages align_in_bytes : Nat) (hPS : 0 < PS) (ha : align_in_bytes < 2 ^ 64) :
    alloc_pages PS st num_pages align_in_bytes = some (.error .InvalidParam, st) ↔
      ¬ PS ∣ align_in_bytes ∨ ¬ ∃ k, align_in_bytes / PS = 2 ^ k := by
  have hu64 : align_in_bytes / PS < 2 ^ 64 :=
    lt_of_le_of_lt (Nat.div_le_self _ _) ha
  have hiff := is_power_of_two_iff_usize (align_in_bytes / PS) hu64
  constructor
  · intro h
    by_contra hc
    push_neg at hc
    obtain ⟨hd, hp⟩ := hc
    have hmod : align_in_bytes % PS = 0 := Nat.dvd_iff_mod_eq_zero.mp hd
    have hpow : is_power_of_two (align_in_bytes / PS) = true := hiff.mpr hp
    simp only [alloc_pages, Nat.one_shiftLeft] at h
    rw [if_neg (by omega : ¬ PS = 0), if_neg (by omega : ¬ align_in_bytes % PS ≠ 0),
      if_neg (by simp [hpow] : ¬ is_power_of_two (align_in_bytes / PS) = false)] at h
    split at h
    · exact absurd h (by simp)
    · split at h
      · exact absurd h (by simp)
      · split at h
        · exact absurd h (by simp)
        · split at h
          · simp only [Option.some.injEq, Prod.mk.injEq, Except.error.injEq] at h
            exact AllocError.noConfusion h.1
          · exact absurd h (by simp)
  · intro h
    simp only [alloc_pages]
    rw [if_neg (by omega : ¬ PS = 0)]
    rcases h with h | h
    · have hmod : align_in_bytes % PS ≠ 0 := fun hz =>
        h (Nat.dvd_iff_mod_eq_zero.mpr hz)
      rw [if_pos hmod]
    · have hpow : is_power_of_two (align_in_bytes / PS) = false := by
        rcases hb : is_power_of_two (align_in_bytes / PS) with _ | _
        · rfl
        · exact absurd (hiff.mp hb) h
      by_cases hmod : align_in_bytes % PS ≠ 0
      · rw [if_pos hmod]
      · rw [if_neg hmod, if_pos hpow]

/-- Claim C7, witness: `align_in_bytes = 0x1800` is not a multiple of
`PAGE_SIZE = 0x1000`, and indeed the call reports `InvalidParam` without
touching the state. -/
theorem invalid_param_iff_witness :
    (0 : Nat) < 0x1000 ∧ (0x1800 : Nat) < 2 ^ 64 ∧
    (alloc_pages 0x1000 ⟨0x1000, 0x5000, 0x1000, 0x5000⟩ 1 0x1800 =
        some (.error .InvalidParam, ⟨0x1000, 0x5000, 0x1000, 0x5000⟩) ↔
      ¬ (0x1000 : Nat) ∣ 0x1800 ∨ ¬ ∃ k, (0x1800 : Nat) / 0x1000 = 2 ^ k) :=
  ⟨by decide, by decide,
    invalid_param_iff 0x1000 ⟨0x1000, 0x5000, 0x1000, 0x5000⟩ 1 0x1800
      (by decide) (by decide)⟩

/-- Claim C8 (confirmed): if, anywhere after `init`, two `alloc` calls with
power-of-two alignments both succeed (the second in any state reached from
the first's post-state), the returned ranges `[addr1, addr1 + size1)` and
`[addr2, addr2 + size2)` are disjoint. -/
theorem byte_allocs_disjoint (PS : Nat) (st1 st2 st3 st4 : EarlyAllocator)
    (size1 align1 k1 addr1 size2 align2 k2 addr2 : Nat)
    (_hinit : Reachable PS st1)
    (_hk1 : align1 = 2 ^ k1) (h1 : alloc st1 size1 align1 = some (.ok addr1, st2))
    (hmid : Reach PS st2 st3)
    (hk2 : align2 = 2 ^ k2) (h2 : alloc st3 size2 align2 = some (.ok addr2, st4)) :
    addr1 + size1 ≤ addr2 ∨ addr2 + size2 ≤ addr1 := by
  left
  obtain ⟨-, -, -, -, -, hst2⟩ := alloc_ok_spec st1 st2 size1 align1 addr1 h1
  obtain ⟨-, hge2⟩ := alloc_ok_round_up st3 st4 size2 align2 k2 addr2 hk2 h2
  have hmono := reach_byte_pos_mono PS st2 st3 hmid
  subst hst2
  have hstep : addr1 + size1 ≤ st3.byte_pos := hmono
  omega

/-- Claim C8, witness: two consecutive 16-byte, 8-aligned allocations after
`init(0x1000, 0x4000)` return the disjoint ranges starting at `0x1000` and
`0x1010`. -/
theorem byte_allocs_disjoint_witness :
    Reachable 0x1000 ⟨0x1000, 0x5000, 0x1000, 0x5000⟩ ∧
    alloc ⟨0x1000, 0x5000, 0x1000, 0x5000⟩ 16 8 =
      some (.ok 0x1000, ⟨0x1000, 0x5000, 0x1010, 0x5000⟩) ∧
    alloc ⟨0x1000, 0x5000, 0x1010, 0x5000⟩ 16 8 =
      some (.ok 0x1010, ⟨0x1000, 0x5000, 0x1020, 0x5000⟩) ∧
    ((0x1000 : Nat) + 16 ≤ 0x1010 ∨ (0x1010 : Nat) + 16 ≤ 0x1000) :=
  ⟨⟨⟨0x1000, 0x5000, 0x1000, 0x5000⟩, 0x1000, 0x4000, rfl, Relation.ReflTransGen.refl⟩,
    rfl, rfl,
    byte_allocs_disjoint 0x1000 ⟨0x1000, 0x5000, 0x1000, 0x5000⟩
      ⟨0x1000, 0x5000, 0x1010, 0x5000⟩ ⟨0x1000, 0x5000, 0x1010, 0x5000⟩
      ⟨0x1000, 0x5000, 0x1020, 0x5000⟩ 16 8 3 0x1000 16 8 3 0x1010
      ⟨⟨0x1000, 0x5000, 0x1000, 0x5000⟩, 0x1000, 0x4000, rfl, Relation.ReflTransGen.refl⟩
      rfl rfl Relation.ReflTransGen.refl rfl rfl⟩

/-- Claim C9 (confirmed): every successful `alloc` with a power-of-two
alignment returns an address with `addr % align = 0`. -/
theorem alloc_addr_aligned (st st' : EarlyAllocator) (size align k addr : Nat)
    (hk : align = 2 ^ k) (h : alloc st size align = some (.ok addr, st')) :
    addr % align = 0 := by
  obtain ⟨heq, -⟩ := alloc_ok_round_up st st' size align k addr hk h
  subst hk
  rw [heq]
  exact Nat.mul_mod_right _ _

/-- Claim C9, witness: the 8-aligned allocation after `init(0x1000, 0x4000)`
returns `0x1000`, a multiple of 8. -/
theorem alloc_addr_aligned_witness :
    (8 : Nat) = 2 ^ 3 ∧
    alloc ⟨0x1000, 0x5000, 0x1000, 0x5000⟩ 16 8 =
      some (.ok 0x1000, ⟨0x1000, 0x5000, 0x1010, 0x5000⟩) ∧
    (0x1000 : Nat) % 8 = 0 :=
  ⟨by decide, rfl,
    alloc_addr_aligned ⟨0x1000, 0x5000, 0x1000, 0x5000⟩
      ⟨0x1000, 0x5000, 0x1010, 0x5000⟩ 16 8 3 0x1000 (by decide) rfl⟩

/-- Claim C10 (code bug): after the legal `init(0, 0x1000)` the first
`alloc(16, 8)` succeeds and returns address 0, so the source's
`NonNull::new_unchecked(aligned_start as *mut u8)` is fed a null pointer in
violation of its safety contract. -/
theorem alloc_zero_start_returns_null :
    init 0 0x1000 = some ⟨0, 0x1000, 0, 0x1000⟩ ∧
    alloc ⟨0, 0x1000, 0, 0x1000⟩ 16 8 = some (.ok 0, ⟨0, 0x1000, 16, 0x1000⟩) :=
  ⟨rfl, rfl⟩

end BumpAlloc
